import Mathlib

/-!
Shallow embedding of the bee-catching game (app/bee/main.go).

The game state machine lives entirely in `Game.Update`.  We model `float64`
positions and velocities as rationals, Go `int` as `Int`, and the wall clock
and the random draws consumed by one tick as an explicit `Input` record.
Rendering, image loading and the engine callback loop are outside the model.
-/

namespace BeeGame

/-- Screen width in logical pixels (`screenWidth = 800`). -/
def screenWidth : Int := 800

/-- Screen height in logical pixels (`screenHeight = 600`). -/
def screenHeight : Int := 600

/-- Game duration in seconds (`gameTime = 60`). -/
def gameTime : Int := 60

/-- One moving entity (`type Bee struct`): position, velocity, hitbox size,
kind flags and visibility. -/
structure Bee where
  x : ℚ
  y : ℚ
  speedX : ℚ
  speedY : ℚ
  width : Int
  height : Int
  isHornets : Bool
  isHighSpeed : Bool
  visible : Bool
deriving Repr, DecidableEq

/-- The game state (`type Game struct`), minus the font face used only for
drawing.  `startTime` is the recorded wall-clock second of the last
(re)start. -/
structure Game where
  bees : List Bee
  score : Int
  hornetsClicked : Int
  gameOver : Bool
  gameStarted : Bool
  startTime : Int
  remainingTime : Int
  lightningEffect : Bool
  lightningTimer : Int
deriving Repr, DecidableEq

/-- The random draws consumed by one call of `Game.addBee`:
`hornetRoll`, `speedRoll` are the two `rand.Float64()` results, `imgW`/`imgH`
the size of the chosen sprite image, `posX`/`posY` the `rand.Intn` results and
`velX`/`velY` the two `rand.Float64()` draws feeding the velocity formula. -/
structure SpawnRand where
  hornetRoll : ℚ
  speedRoll : ℚ
  imgW : Int
  imgH : Int
  posX : Int
  posY : Int
  velX : ℚ
  velY : ℚ
deriving Repr, DecidableEq

/-- The environment of one update tick: the mouse press edge and cursor
position, the wall clock reading `now` (in whole seconds), the result of the
spawn probability roll (`rand.Float64() < 0.05`) and the randomness used if a
spawn happens. -/
structure Input where
  justPressed : Bool
  cursorX : Int
  cursorY : Int
  now : Int
  spawnRoll : Bool
  spawn : SpawnRand
deriving Repr, DecidableEq

/-- The entity built by `Game.addBee` from the tick's random draws: the hitbox
is half the sprite size, kind is hornet iff `hornetRoll < 0.2`, tier is high
iff `speedRoll < 0.1`, the speed base is 5.0 (high) or 2.0 (normal), and each
velocity component is `(roll*2 - 1) * speedBase`. -/
def mkBee (r : SpawnRand) : Bee :=
  let isHornets := decide (r.hornetRoll < 1/5)
  let isHighSpeed := decide (r.speedRoll < 1/10)
  let speedBase : ℚ := if isHighSpeed then 5 else 2
  { x := (r.posX : ℚ)
    y := (r.posY : ℚ)
    speedX := (r.velX * 2 - 1) * speedBase
    speedY := (r.velY * 2 - 1) * speedBase
    width := r.imgW / 2
    height := r.imgH / 2
    isHornets := isHornets
    isHighSpeed := isHighSpeed
    visible := true }

/-- `Game.addBee`: append the freshly built entity to the active list. -/
def addBee (g : Game) (r : SpawnRand) : Game :=
  { g with bees := g.bees ++ [mkBee r] }

/-- One motion step of a single entity (the body of the position-update loop):
invisible entities are skipped; otherwise the position advances by the
velocity and each velocity component is negated when the updated position lies
at or past the corresponding screen-edge bound. -/
def moveBee (b : Bee) : Bee :=
  if !b.visible then b
  else
    let x := b.x + b.speedX
    let y := b.y + b.speedY
    let sx := if decide (x ≤ 0) || decide (x ≥ ((screenWidth - b.width : Int) : ℚ)) then -b.speedX else b.speedX
    let sy := if decide (y ≤ 0) || decide (y ≥ ((screenHeight - b.height : Int) : ℚ)) then -b.speedY else b.speedY
    { b with x := x, y := y, speedX := sx, speedY := sy }

/-- The click containment test (`float64(x) >= bee.x && ...`): the cursor lies
inside the entity's axis-aligned bounding box. -/
def contains (b : Bee) (x y : Int) : Bool :=
  decide ((x : ℚ) ≥ b.x) && decide ((x : ℚ) ≤ b.x + (b.width : ℚ)) &&
    decide ((y : ℚ) ≥ b.y) && decide ((y : ℚ) ≤ b.y + (b.height : ℚ))

/-- The per-entity click test of the loop body: visible and containing the
cursor. -/
def hitTest (b : Bee) (x y : Int) : Bool :=
  b.visible && contains b x y

/-- The click loop over the entity list: scan in insertion order, mark the
first entity passing `hitTest` invisible and stop (`break`); return the new
list together with the entity hit, if any. -/
def clickBees (x y : Int) : List Bee → List Bee × Option Bee
  | [] => ([], none)
  | b :: rest =>
    if hitTest b x y then ({ b with visible := false } :: rest, some b)
    else
      let p := clickBees x y rest
      (b :: p.1, p.2)

/-- The bookkeeping run on the entity hit by the click: a hornet increments
the penalty counter, arms the 30-frame lightning effect and ends the game once
the counter reaches 3; a bee adds 3 (high tier) or 1 (normal) to the score. -/
def scoreHit (g : Game) (b : Bee) : Game :=
  if b.isHornets then
    let g1 := { g with
      hornetsClicked := g.hornetsClicked + 1
      lightningEffect := true
      lightningTimer := 30 }
    if g1.hornetsClicked ≥ 3 then { g1 with gameOver := true } else g1
  else if b.isHighSpeed then { g with score := g.score + 3 }
  else { g with score := g.score + 1 }

/-- Full processing of one mouse press during play: run the click loop, then
the hit bookkeeping when an entity was hit. -/
def processClick (g : Game) (x y : Int) : Game :=
  let p := clickBees x y g.bees
  let g1 := { g with bees := p.1 }
  match p.2 with
  | none => g1
  | some b => scoreHit g1 b

/-- The lightning-effect countdown: when armed, decrement the timer and clear
the effect once the timer drops to 0. -/
def tickLightning (g : Game) : Game :=
  if g.lightningEffect then
    let t := g.lightningTimer - 1
    if t ≤ 0 then { g with lightningTimer := t, lightningEffect := false }
    else { g with lightningTimer := t }
  else g

/-- The reset performed on a click while the game is over: clear entities,
score, penalty counter and effect flag, restore the full duration and record
the current time as the new start. -/
def resetGame (g : Game) (now : Int) : Game :=
  { g with
    bees := []
    score := 0
    hornetsClicked := 0
    gameOver := false
    startTime := now
    remainingTime := gameTime
    lightningEffect := false }

/-- The conditional spawn of one tick: with a successful probability roll and
fewer than 10 active entities, add one entity. -/
def spawnStep (g : Game) (i : Input) : Game :=
  if i.spawnRoll && decide (g.bees.length < 10) then addBee g i.spawn else g

/-- The motion pass of one tick: move every entity. -/
def moveStep (g : Game) : Game :=
  { g with bees := g.bees.map moveBee }

/-- The click pass of one tick: process the press edge when present. -/
def clickStep (g : Game) (i : Input) : Game :=
  if i.justPressed then processClick g i.cursorX i.cursorY else g

/-- The compaction pass closing one tick: drop every invisible entity,
preserving order. -/
def compactStep (g : Game) : Game :=
  { g with bees := g.bees.filter (fun b => b.visible) }

/-- The playing-phase part of one tick, after the timer check passed: spawn,
lightning countdown, motion, click processing, compaction. -/
def playStep (g : Game) (i : Input) : Game :=
  compactStep (clickStep (moveStep (tickLightning (spawnStep g i))) i)

/-- `Game.Update`: the whole per-frame state transition.  Before the start,
wait for the first press; while over, wait for the reset press; while playing,
recompute the remaining time from the wall clock, end the game at once when it
reaches 0, else run the playing-phase passes. -/
def update (g : Game) (i : Input) : Game :=
  if !g.gameStarted then
    if i.justPressed then { g with gameStarted := true, startTime := i.now } else g
  else if g.gameOver then
    if i.justPressed then resetGame g i.now else g
  else
    let rt := gameTime - (i.now - g.startTime)
    if rt ≤ 0 then { g with gameOver := true, remainingTime := 0 }
    else playStep { g with remainingTime := rt } i

/-- The state built by `NewGame` (the `startTime` zero value stands for the
unset timestamp). -/
def initGame : Game :=
  { bees := []
    score := 0
    hornetsClicked := 0
    gameOver := false
    gameStarted := false
    startTime := 0
    remainingTime := gameTime
    lightningEffect := false
    lightningTimer := 0 }

/-- The states the game can be in at an update-step boundary: the initial
state and everything `update` reaches from it. -/
inductive Reachable : Game → Prop where
  | init : Reachable initGame
  | step {g : Game} (i : Input) : Reachable g → Reachable (update g i)

/-- The state invariant maintained by `update` at step boundaries: penalty
counter in 0..3 and forcing game over at 3, entity count capped at 10, every
active entity visible, and the stored remaining time non-negative. -/
def Inv (g : Game) : Prop :=
  0 ≤ g.hornetsClicked ∧ g.hornetsClicked ≤ 3 ∧
    (g.hornetsClicked = 3 → g.gameOver = true) ∧
    g.bees.length ≤ 10 ∧ (∀ b ∈ g.bees, b.visible = true) ∧
    0 ≤ g.remainingTime

/-- The wall-bounce trigger for the x component: after this tick's motion the
x position lies at or past a horizontal screen-edge bound. -/
def crossedX (b : Bee) : Prop :=
  b.x + b.speedX ≤ 0 ∨ b.x + b.speedX ≥ ((screenWidth - b.width : Int) : ℚ)

/-- The wall-bounce trigger for the y component. -/
def crossedY (b : Bee) : Prop :=
  b.y + b.speedY ≤ 0 ∨ b.y + b.speedY ≥ ((screenHeight - b.height : Int) : ℚ)

/-! ### Concrete sample data for counterexamples and witnesses -/

/-- A spawnable entity sitting exactly on the left bound and moving further
left (`rand.Intn` can return 0 and the velocity roll can be negative). -/
def stuckBee : Bee :=
  { x := 0, y := 100, speedX := -1, speedY := 0, width := 50, height := 50,
    isHornets := false, isHighSpeed := false, visible := true }

/-- A spawnable entity sitting exactly on the top bound and moving further
up. -/
def stuckBeeY : Bee :=
  { x := 100, y := 0, speedX := 0, speedY := -1, width := 50, height := 50,
    isHornets := false, isHighSpeed := false, visible := true }

/-- Sample random draws for a spawn: a normal-tier bee at (400, 300) with
zero velocity and a 100×100 sprite. -/
def sampleSpawn : SpawnRand :=
  { hornetRoll := 1/2, speedRoll := 1/2, imgW := 100, imgH := 100,
    posX := 400, posY := 300, velX := 1/2, velY := 1/2 }

/-- A stationary normal-tier bee with its top-left corner at (100, 100) and a
50×50 hitbox. -/
def sampleBee : Bee :=
  { x := 100, y := 100, speedX := 0, speedY := 0, width := 50, height := 50,
    isHornets := false, isHighSpeed := false, visible := true }

/-- A second bee overlapping the point (120, 120), inserted after
`sampleBee`. -/
def overlapBee : Bee :=
  { x := 90, y := 90, speedX := 0, speedY := 0, width := 60, height := 60,
    isHornets := false, isHighSpeed := false, visible := true }

/-- A bee moving right and down well away from every bound. -/
def moverBee : Bee :=
  { x := 100, y := 100, speedX := 1, speedY := 2, width := 50, height := 50,
    isHornets := false, isHighSpeed := false, visible := true }

/-- A mid-play state holding `sampleBee`. -/
def sampleGame : Game :=
  { bees := [sampleBee], score := 5, hornetsClicked := 0, gameOver := false,
    gameStarted := true, startTime := 0, remainingTime := 60,
    lightningEffect := false, lightningTimer := 0 }

/-- A finished game with leftover state in every resettable field. -/
def overGame : Game :=
  { bees := [sampleBee], score := 7, hornetsClicked := 2, gameOver := true,
    gameStarted := true, startTime := 3, remainingTime := 0,
    lightningEffect := true, lightningTimer := 5 }

/-- A tick input: press at (120, 120), 10 seconds in, no spawn roll. -/
def clickInput : Input :=
  { justPressed := true, cursorX := 120, cursorY := 120, now := 10,
    spawnRoll := false, spawn := sampleSpawn }

/-- A tick input arriving 100 seconds after the start, past the 60-second
game duration. -/
def timeoutInput : Input :=
  { justPressed := false, cursorX := 0, cursorY := 0, now := 100,
    spawnRoll := false, spawn := sampleSpawn }

/-- A tick input that only presses the button at time 0. -/
def pressInput : Input :=
  { justPressed := true, cursorX := 0, cursorY := 0, now := 0,
    spawnRoll := false, spawn := sampleSpawn }

/-- A tick input one second in whose spawn roll succeeds. -/
def spawnInput : Input :=
  { justPressed := false, cursorX := 0, cursorY := 0, now := 1,
    spawnRoll := true, spawn := sampleSpawn }

/-! ### Frame lemmas: which fields each pass leaves untouched -/

@[simp] theorem addBee_score (g : Game) (r : SpawnRand) : (addBee g r).score = g.score := rfl

@[simp] theorem addBee_hornetsClicked (g : Game) (r : SpawnRand) :
    (addBee g r).hornetsClicked = g.hornetsClicked := rfl

@[simp] theorem addBee_gameOver (g : Game) (r : SpawnRand) : (addBee g r).gameOver = g.gameOver := rfl

@[simp] theorem addBee_remainingTime (g : Game) (r : SpawnRand) :
    (addBee g r).remainingTime = g.remainingTime := rfl

@[simp] theorem addBee_bees (g : Game) (r : SpawnRand) : (addBee g r).bees = g.bees ++ [mkBee r] := rfl

@[simp] theorem compactStep_score (g : Game) : (compactStep g).score = g.score := rfl

@[simp] theorem compactStep_hornetsClicked (g : Game) :
    (compactStep g).hornetsClicked = g.hornetsClicked := rfl

@[simp] theorem compactStep_gameOver (g : Game) : (compactStep g).gameOver = g.gameOver := rfl

@[simp] theorem compactStep_remainingTime (g : Game) :
    (compactStep g).remainingTime = g.remainingTime := rfl

@[simp] theorem compactStep_bees (g : Game) :
    (compactStep g).bees = g.bees.filter (fun b => b.visible) := rfl

@[simp] theorem moveStep_score (g : Game) : (moveStep g).score = g.score := rfl

@[simp] theorem moveStep_hornetsClicked (g : Game) :
    (moveStep g).hornetsClicked = g.hornetsClicked := rfl

@[simp] theorem moveStep_gameOver (g : Game) : (moveStep g).gameOver = g.gameOver := rfl

@[simp] theorem moveStep_remainingTime (g : Game) : (moveStep g).remainingTime = g.remainingTime := rfl

@[simp] theorem moveStep_bees (g : Game) : (moveStep g).bees = g.bees.map moveBee := rfl

@[simp] theorem spawnStep_score (g : Game) (i : Input) : (spawnStep g i).score = g.score := by
  unfold spawnStep; split <;> rfl

@[simp] theorem spawnStep_hornetsClicked (g : Game) (i : Input) :
    (spawnStep g i).hornetsClicked = g.hornetsClicked := by
  unfold spawnStep; split <;> rfl

@[simp] theorem spawnStep_gameOver (g : Game) (i : Input) :
    (spawnStep g i).gameOver = g.gameOver := by
  unfold spawnStep; split <;> rfl

@[simp] theorem spawnStep_remainingTime (g : Game) (i : Input) :
    (spawnStep g i).remainingTime = g.remainingTime := by
  unfold spawnStep; split <;> rfl

@[simp] theorem tickLightning_score (g : Game) : (tickLightning g).score = g.score := by
  simp only [tickLightning]
  split
  · split <;> rfl
  · rfl

@[simp] theorem tickLightning_hornetsClicked (g : Game) :
    (tickLightning g).hornetsClicked = g.hornetsClicked := by
  simp only [tickLightning]
  split
  · split <;> rfl
  · rfl

@[simp] theorem tickLightning_gameOver (g : Game) : (tickLightning g).gameOver = g.gameOver := by
  simp only [tickLightning]
  split
  · split <;> rfl
  · rfl

@[simp] theorem tickLightning_remainingTime (g : Game) :
    (tickLightning g).remainingTime = g.remainingTime := by
  simp only [tickLightning]
  split
  · split <;> rfl
  · rfl

@[simp] theorem tickLightning_bees (g : Game) : (tickLightning g).bees = g.bees := by
  simp only [tickLightning]
  split
  · split <;> rfl
  · rfl

@[simp] theorem scoreHit_bees (g : Game) (b : Bee) : (scoreHit g b).bees = g.bees := by
  simp only [scoreHit]
  split
  · split <;> rfl
  · split <;> rfl

@[simp] theorem scoreHit_remainingTime (g : Game) (b : Bee) :
    (scoreHit g b).remainingTime = g.remainingTime := by
  simp only [scoreHit]
  split
  · split <;> rfl
  · split <;> rfl

/-- The click loop never changes the number of entities: it only toggles one
visibility flag. -/
theorem clickBees_fst_length (x y : Int) :
    ∀ l : List Bee, ((clickBees x y l).1).length = l.length := by
  intro l
  induction l with
  | nil => rfl
  | cons b rest ih =>
    simp only [clickBees]
    split
    · simp
    · simpa using ih

/-- Case analysis of `scoreHit` on the penalty counter and the game-over flag:
a bee hit leaves both alone; a hornet hit increments the counter by one and
sets the game over exactly when the new counter has reached 3. -/
theorem scoreHit_hornets_cases (g : Game) (b : Bee) :
    ((scoreHit g b).hornetsClicked = g.hornetsClicked ∧
      (scoreHit g b).gameOver = g.gameOver ∧ b.isHornets = false) ∨
    ((scoreHit g b).hornetsClicked = g.hornetsClicked + 1 ∧ b.isHornets = true ∧
      ((3 : Int) ≤ g.hornetsClicked + 1 → (scoreHit g b).gameOver = true) ∧
      (g.hornetsClicked + 1 < 3 → (scoreHit g b).gameOver = g.gameOver)) := by
  simp only [scoreHit]
  by_cases hb : b.isHornets = true
  · right
    simp only [hb, if_true]
    split
    · refine ⟨rfl, trivial, fun _ => rfl, fun hlt => absurd ?_ hlt.not_le⟩
      assumption
    · exact ⟨rfl, trivial, fun hge => absurd hge (by assumption), fun _ => rfl⟩
  · left
    simp only [Bool.not_eq_true] at hb
    simp only [hb, Bool.false_eq_true, if_false]
    split <;> exact ⟨rfl, rfl, trivial⟩

/-- Case analysis of `scoreHit` on the score: a hornet hit leaves it alone; a
bee hit adds 3 (high tier) or 1 (normal). -/
theorem scoreHit_score (g : Game) (b : Bee) :
    (scoreHit g b).score =
      if b.isHornets then g.score else if b.isHighSpeed then g.score + 3 else g.score + 1 := by
  simp only [scoreHit]
  by_cases hb : b.isHornets = true
  · simp only [hb, if_true]
    split <;> rfl
  · simp only [Bool.not_eq_true] at hb
    simp only [hb, Bool.false_eq_true, if_false]
    split <;> rfl

/-- `processClick` preserves the entity count. -/
@[simp] theorem processClick_bees_length (g : Game) (x y : Int) :
    ((processClick g x y).bees).length = g.bees.length := by
  simp only [processClick]
  rcases hp : (clickBees x y g.bees).2 with _ | b
  · simpa using clickBees_fst_length x y g.bees
  · simpa using clickBees_fst_length x y g.bees

@[simp] theorem processClick_remainingTime (g : Game) (x y : Int) :
    (processClick g x y).remainingTime = g.remainingTime := by
  simp only [processClick]
  rcases (clickBees x y g.bees).2 with _ | b
  · rfl
  · simp

/-- Case analysis of `processClick` on the penalty counter and the game-over
flag. -/
theorem processClick_hornets_cases (g : Game) (x y : Int) :
    ((processClick g x y).hornetsClicked = g.hornetsClicked ∧
      (processClick g x y).gameOver = g.gameOver) ∨
    ((processClick g x y).hornetsClicked = g.hornetsClicked + 1 ∧
      ((3 : Int) ≤ g.hornetsClicked + 1 → (processClick g x y).gameOver = true) ∧
      (g.hornetsClicked + 1 < 3 → (processClick g x y).gameOver = g.gameOver)) := by
  simp only [processClick]
  rcases (clickBees x y g.bees).2 with _ | b
  · exact Or.inl ⟨rfl, rfl⟩
  · rcases scoreHit_hornets_cases { g with bees := (clickBees x y g.bees).1 } b with
      ⟨h1, h2, _⟩ | ⟨h1, _, h2, h3⟩
    · exact Or.inl ⟨h1, h2⟩
    · exact Or.inr ⟨h1, h2, h3⟩

/-- Case analysis of the click pass of a full tick. -/
theorem clickStep_hornets_cases (g : Game) (i : Input) :
    ((clickStep g i).hornetsClicked = g.hornetsClicked ∧
      (clickStep g i).gameOver = g.gameOver) ∨
    ((clickStep g i).hornetsClicked = g.hornetsClicked + 1 ∧
      ((3 : Int) ≤ g.hornetsClicked + 1 → (clickStep g i).gameOver = true) ∧
      (g.hornetsClicked + 1 < 3 → (clickStep g i).gameOver = g.gameOver)) := by
  simp only [clickStep]
  split
  · exact processClick_hornets_cases g i.cursorX i.cursorY
  · exact Or.inl ⟨rfl, rfl⟩

@[simp] theorem clickStep_bees_length (g : Game) (i : Input) :
    ((clickStep g i).bees).length = g.bees.length := by
  simp only [clickStep]
  split
  · exact processClick_bees_length g i.cursorX i.cursorY
  · rfl

@[simp] theorem clickStep_remainingTime (g : Game) (i : Input) :
    (clickStep g i).remainingTime = g.remainingTime := by
  simp only [clickStep]
  split
  · exact processClick_remainingTime g i.cursorX i.cursorY
  · rfl

/-- Case analysis of the whole playing-phase pass on the penalty counter and
the game-over flag: one tick increments the counter by at most one, and an
increment that reaches 3 sets the game over. -/
theorem playStep_hornets_cases (g : Game) (i : Input) :
    ((playStep g i).hornetsClicked = g.hornetsClicked ∧
      (playStep g i).gameOver = g.gameOver) ∨
    ((playStep g i).hornetsClicked = g.hornetsClicked + 1 ∧
      ((3 : Int) ≤ g.hornetsClicked + 1 → (playStep g i).gameOver = true) ∧
      (g.hornetsClicked + 1 < 3 → (playStep g i).gameOver = g.gameOver)) := by
  simp only [playStep]
  rcases clickStep_hornets_cases (moveStep (tickLightning (spawnStep g i))) i with
    ⟨h1, h2⟩ | ⟨h1, h2, h3⟩
  · exact Or.inl (by simp_all)
  · exact Or.inr (by simp_all)

@[simp] theorem playStep_remainingTime (g : Game) (i : Input) :
    (playStep g i).remainingTime = g.remainingTime := by
  simp [playStep]

/-- The spawn pass adds at most one entity. -/
theorem spawnStep_length_le (g : Game) (i : Input) :
    ((spawnStep g i).bees).length ≤ g.bees.length + 1 := by
  simp only [spawnStep]
  split
  · simp
  · simp

/-- The spawn pass respects the cap: it only fires below 10 entities. -/
theorem spawnStep_length_cap (g : Game) (i : Input) (h : g.bees.length ≤ 10) :
    ((spawnStep g i).bees).length ≤ 10 := by
  simp only [spawnStep]
  split
  · rename_i hc
    simp only [Bool.and_eq_true, decide_eq_true_eq] at hc
    simp
    omega
  · exact h

/-- One full playing-phase pass adds at most one entity. -/
theorem playStep_length_le (g : Game) (i : Input) :
    ((playStep g i).bees).length ≤ g.bees.length + 1 := by
  simp only [playStep, compactStep_bees]
  calc ((clickStep (moveStep (tickLightning (spawnStep g i))) i).bees.filter
          (fun b => b.visible)).length
      ≤ ((clickStep (moveStep (tickLightning (spawnStep g i))) i).bees).length :=
        List.length_filter_le _ _
    _ = ((spawnStep g i).bees).length := by simp
    _ ≤ g.bees.length + 1 := spawnStep_length_le g i

/-- One full playing-phase pass respects the entity cap. -/
theorem playStep_length_cap (g : Game) (i : Input) (h : g.bees.length ≤ 10) :
    ((playStep g i).bees).length ≤ 10 := by
  simp only [playStep, compactStep_bees]
  calc ((clickStep (moveStep (tickLightning (spawnStep g i))) i).bees.filter
          (fun b => b.visible)).length
      ≤ ((clickStep (moveStep (tickLightning (spawnStep g i))) i).bees).length :=
        List.length_filter_le _ _
    _ = ((spawnStep g i).bees).length := by simp
    _ ≤ 10 := spawnStep_length_cap g i h

/-- After the compaction closing a playing-phase pass, every entity is
visible. -/
theorem playStep_all_visible (g : Game) (i : Input) :
    ∀ b ∈ (playStep g i).bees, b.visible = true := by
  intro b hb
  simp only [playStep, compactStep_bees, List.mem_filter] at hb
  exact hb.2

/-! ### The state invariant and its preservation -/

theorem inv_init : Inv initGame := by
  refine ⟨?_, ?_, ?_, ?_, ?_, ?_⟩ <;> simp [initGame, gameTime]

theorem inv_step (g : Game) (i : Input) (h : Inv g) : Inv (update g i) := by
  obtain ⟨h1, h2, h3, h4, h5, h6⟩ := h
  simp only [update]
  split
  · split
    · exact ⟨h1, h2, h3, h4, h5, h6⟩
    · exact ⟨h1, h2, h3, h4, h5, h6⟩
  · split
    · split
      · refine ⟨?_, ?_, ?_, ?_, ?_, ?_⟩ <;> simp [resetGame, gameTime]
      · exact ⟨h1, h2, h3, h4, h5, h6⟩
    · rename_i hns hgo
      split
      · exact ⟨h1, h2, fun _ => rfl, h4, h5, le_refl 0⟩
      · rename_i hrt
        rw [Bool.not_eq_true] at hgo
        have hhc2 : g.hornetsClicked ≤ 2 := by
          rcases lt_or_eq_of_le h2 with hlt | heq
          · omega
          · rw [h3 heq] at hgo
            exact absurd hgo (by simp)
        set g1 : Game := { g with remainingTime := gameTime - (i.now - g.startTime) } with hg1
        have hg1hc : g1.hornetsClicked = g.hornetsClicked := rfl
        have hg1rt : g1.remainingTime = gameTime - (i.now - g.startTime) := rfl
        rcases playStep_hornets_cases g1 i with ⟨hc, hgo2⟩ | ⟨hc, hforce, _⟩
        · rw [hg1hc] at hc
          refine ⟨?_, ?_, ?_, ?_, playStep_all_visible _ i, ?_⟩
          · rw [hc]; exact h1
          · rw [hc]; exact h2
          · intro h3c
            rw [hc] at h3c
            rw [hgo2]
            exact h3 h3c
          · exact playStep_length_cap _ i h4
          · rw [playStep_remainingTime, hg1rt]
            omega
        · rw [hg1hc] at hc
          rw [hg1hc] at hforce
          refine ⟨?_, ?_, ?_, ?_, playStep_all_visible _ i, ?_⟩
          · rw [hc]; omega
          · rw [hc]; omega
          · intro h3c
            exact hforce (by omega)
          · exact playStep_length_cap _ i h4
          · rw [playStep_remainingTime, hg1rt]
            omega

/-- Every reachable state satisfies the invariant. -/
theorem reachable_inv (g : Game) (h : Reachable g) : Inv g := by
  induction h with
  | init => exact inv_init
  | step i _ ih => exact inv_step _ i ih

/-! ### Phase-wise reduction of `update` -/

theorem update_playing (g : Game) (i : Input) (hs : g.gameStarted = true)
    (ho : g.gameOver = false) :
    update g i =
      if gameTime - (i.now - g.startTime) ≤ 0 then
        { g with gameOver := true, remainingTime := 0 }
      else playStep { g with remainingTime := gameTime - (i.now - g.startTime) } i := by
  simp [update, hs, ho]

theorem update_over (g : Game) (i : Input) (hs : g.gameStarted = true)
    (ho : g.gameOver = true) :
    update g i = if i.justPressed then resetGame g i.now else g := by
  simp [update, hs, ho]

/-- During play, one update step never decreases the penalty counter. -/
theorem update_hornets_mono (g : Game) (i : Input) (hs : g.gameStarted = true)
    (ho : g.gameOver = false) :
    g.hornetsClicked ≤ (update g i).hornetsClicked := by
  rw [update_playing g i hs ho]
  split
  · exact le_refl g.hornetsClicked
  · set g1 : Game := { g with remainingTime := gameTime - (i.now - g.startTime) } with hg1
    have hg1hc : g1.hornetsClicked = g.hornetsClicked := rfl
    rcases playStep_hornets_cases g1 i with ⟨hc, _⟩ | ⟨hc, _, _⟩
    · rw [hc, hg1hc]
    · rw [hc, hg1hc]
      omega

/-! ### First-match click processing -/

/-- When no entity passes the hit test, the click loop returns the list
unchanged and reports no hit. -/
theorem clickBees_no_match (x y : Int) :
    ∀ l : List Bee, (∀ a ∈ l, hitTest a x y = false) → clickBees x y l = (l, none) := by
  intro l
  induction l with
  | nil => intro _; rfl
  | cons a rest ih =>
    intro h
    have ha : hitTest a x y = false := h a (by simp)
    simp only [clickBees, ha, Bool.false_eq_true, if_false]
    rw [ih (fun a2 h2 => h a2 (by simp [h2]))]

/-- The click loop marks exactly the first entity passing the hit test
invisible, reports it, and leaves every entity before and after it
untouched. -/
theorem clickBees_first_match (x y : Int) (pre : List Bee) (b : Bee) (post : List Bee)
    (hpre : ∀ a ∈ pre, hitTest a x y = false) (hb : hitTest b x y = true) :
    clickBees x y (pre ++ b :: post) =
      (pre ++ { b with visible := false } :: post, some b) := by
  induction pre with
  | nil => simp [clickBees, hb]
  | cons a rest ih =>
    have ha : hitTest a x y = false := hpre a (by simp)
    simp only [List.cons_append, clickBees, ha, Bool.false_eq_true, if_false, List.append_eq]
    rw [ih (fun a2 h2 => hpre a2 (by simp [h2]))]

/-! ### Straight-line motion -/

/-- After `N` motion ticks in which every intermediate position stays strictly
inside both screen-edge bounds, the position is the initial one plus `N` times
the velocity and the velocity is unchanged. -/
theorem moveBee_iterate (b : Bee) (N : ℕ) (hv : b.visible = true)
    (h : ∀ k : ℕ, k < N →
      0 < b.x + (k + 1 : ℚ) * b.speedX ∧
      b.x + (k + 1 : ℚ) * b.speedX < ((screenWidth - b.width : Int) : ℚ) ∧
      0 < b.y + (k + 1 : ℚ) * b.speedY ∧
      b.y + (k + 1 : ℚ) * b.speedY < ((screenHeight - b.height : Int) : ℚ)) :
    (moveBee^[N] b).x = b.x + (N : ℚ) * b.speedX ∧
    (moveBee^[N] b).y = b.y + (N : ℚ) * b.speedY ∧
    (moveBee^[N] b).speedX = b.speedX ∧
    (moveBee^[N] b).speedY = b.speedY ∧
    (moveBee^[N] b).visible = true ∧
    (moveBee^[N] b).width = b.width ∧
    (moveBee^[N] b).height = b.height := by
  induction N with
  | zero => simp [hv]
  | succ n ih =>
    obtain ⟨ihx, ihy, ihsx, ihsy, ihv, ihw, ihh⟩ := ih (fun k hk => h k (Nat.lt_succ_of_lt hk))
    obtain ⟨hx1, hx2, hy1, hy2⟩ := h n (Nat.lt_succ_self n)
    rw [Function.iterate_succ_apply']
    set s := moveBee^[n] b with hs
    have e1 : s.x + s.speedX = b.x + ((n : ℚ) + 1) * b.speedX := by
      rw [ihx, ihsx]; ring
    have e2 : s.y + s.speedY = b.y + ((n : ℚ) + 1) * b.speedY := by
      rw [ihy, ihsy]; ring
    have hcx : (decide (s.x + s.speedX ≤ 0) ||
        decide (s.x + s.speedX ≥ ((screenWidth - s.width : Int) : ℚ))) = false := by
      rw [ihw]
      simp only [Bool.or_eq_false_iff, decide_eq_false_iff_not, not_le]
      exact ⟨by rw [e1]; exact hx1, by rw [e1]; exact hx2⟩
    have hcy : (decide (s.y + s.speedY ≤ 0) ||
        decide (s.y + s.speedY ≥ ((screenHeight - s.height : Int) : ℚ))) = false := by
      rw [ihh]
      simp only [Bool.or_eq_false_iff, decide_eq_false_iff_not, not_le]
      exact ⟨by rw [e2]; exact hy1, by rw [e2]; exact hy2⟩
    simp only [moveBee, ihv, Bool.not_true, Bool.false_eq_true, if_false, hcx, hcy]
    refine ⟨?_, ?_, ihsx, ihsy, trivial, ihw, ihh⟩
    · rw [e1]; push_cast; ring
    · rw [e2]; push_cast; ring


/-! ### Claim C1: wall-bounce reflection -/

instance (b : Bee) : Decidable (crossedX b) :=
  inferInstanceAs (Decidable (_ ∨ _))

instance (b : Bee) : Decidable (crossedY b) :=
  inferInstanceAs (Decidable (_ ∨ _))

theorem update_notStarted (g : Game) (i : Input) (hs : g.gameStarted = false) :
    update g i =
      if i.justPressed then { g with gameStarted := true, startTime := i.now } else g := by
  simp [update, hs]

/-- With the crossing predicates, one motion step of a visible entity in
closed form. -/
theorem moveBee_eq (b : Bee) (hv : b.visible = true) :
    moveBee b = { b with
      x := b.x + b.speedX
      y := b.y + b.speedY
      speedX := if crossedX b then -b.speedX else b.speedX
      speedY := if crossedY b then -b.speedY else b.speedY } := by
  simp only [moveBee, hv, Bool.not_true, Bool.false_eq_true, if_false, Bool.or_eq_true,
    decide_eq_true_eq, crossedX, crossedY]

/-- C1 (amended): on one tick each velocity component of a visible entity is
negated exactly once when the moved position crosses the corresponding
screen-edge bound and kept otherwise; and when the entity started the crossing
tick strictly inside the corresponding bounds, the following tick does not
flip that same component again.  The restriction to a strictly interior
pre-crossing position is forced by `C1_counterexample`. -/
theorem C1_reflection (b : Bee) (hv : b.visible = true) :
    (((crossedX b → (moveBee b).speedX = -b.speedX) ∧
        (¬ crossedX b → (moveBee b).speedX = b.speedX)) ∧
      (0 < b.x → b.x < ((screenWidth - b.width : Int) : ℚ) → crossedX b →
        (moveBee (moveBee b)).speedX = (moveBee b).speedX)) ∧
    (((crossedY b → (moveBee b).speedY = -b.speedY) ∧
        (¬ crossedY b → (moveBee b).speedY = b.speedY)) ∧
      (0 < b.y → b.y < ((screenHeight - b.height : Int) : ℚ) → crossedY b →
        (moveBee (moveBee b)).speedY = (moveBee b).speedY)) := by
  have h1 := moveBee_eq b hv
  have hv2 : (moveBee b).visible = true := by
    rw [h1]; exact hv
  refine ⟨⟨⟨?_, ?_⟩, ?_⟩, ⟨?_, ?_⟩, ?_⟩
  · intro hcx
    rw [h1, if_pos hcx]
  · intro hcx
    rw [h1, if_neg hcx]
  · intro hx0 hxw hcx
    have hnc : ¬ crossedX (moveBee b) := by
      rw [h1, if_pos hcx]
      simp only [crossedX]
      push_neg
      exact ⟨by linarith, by linarith⟩
    rw [moveBee_eq (moveBee b) hv2, if_neg hnc]
  · intro hcy
    rw [h1, if_pos hcy]
  · intro hcy
    rw [h1, if_neg hcy]
  · intro hy0 hyh hcy
    have hnc : ¬ crossedY (moveBee b) := by
      rw [h1, if_pos hcy]
      simp only [crossedY]
      push_neg
      exact ⟨by linarith, by linarith⟩
    rw [moveBee_eq (moveBee b) hv2, if_neg hnc]

/-- C1 counterexample, on both axes: `stuckBee` sits exactly on the left bound
moving left and `stuckBeeY` exactly on the top bound moving up (both spawnable
states).  Each crosses its bound, reflects, remains past the bound after
reflecting, and the very next tick flips the same velocity component again -
refuting "subsequent ticks do not flip the same velocity component again" as
stated. -/
theorem C1_counterexample :
    (stuckBee.visible = true ∧ crossedX stuckBee ∧
      (moveBee stuckBee).x ≤ 0 ∧ (moveBee stuckBee).speedX = -stuckBee.speedX ∧
      (moveBee (moveBee stuckBee)).speedX ≠ (moveBee stuckBee).speedX) ∧
    (stuckBeeY.visible = true ∧ crossedY stuckBeeY ∧
      (moveBee stuckBeeY).y ≤ 0 ∧ (moveBee stuckBeeY).speedY = -stuckBeeY.speedY ∧
      (moveBee (moveBee stuckBeeY)).speedY ≠ (moveBee stuckBeeY).speedY) := by
  constructor
  · refine ⟨rfl, ?_, ?_, ?_, ?_⟩ <;>
      norm_num [moveBee, stuckBee, crossedX, screenWidth, screenHeight]
  · refine ⟨rfl, ?_, ?_, ?_, ?_⟩ <;>
      norm_num [moveBee, stuckBeeY, crossedY, screenWidth, screenHeight]

/-- Witness for `C1_reflection` at a bee one pixel inside the left bound
moving left and one one pixel inside the top bound moving up. -/
theorem C1_reflection_witness :
    stuckBee.visible = true ∧ (0 : ℚ) < 1 ∧ (1 : ℚ) < ((screenWidth - (50 : Int) : Int) : ℚ) ∧
      (moveBee { stuckBee with x := 1 }).speedX = -stuckBee.speedX ∧
      (moveBee (moveBee { stuckBee with x := 1 })).speedX =
        (moveBee { stuckBee with x := 1 }).speedX ∧
      (moveBee { stuckBeeY with y := 1 }).speedY = -stuckBeeY.speedY ∧
      (moveBee (moveBee { stuckBeeY with y := 1 })).speedY =
        (moveBee { stuckBeeY with y := 1 }).speedY := by
  refine ⟨rfl, by norm_num, by norm_num [screenWidth], ?_, ?_, ?_, ?_⟩
  · have h := C1_reflection { stuckBee with x := 1 } rfl
    exact h.1.1.1 (by norm_num [crossedX, stuckBee, screenWidth])
  · have h := C1_reflection { stuckBee with x := 1 } rfl
    exact h.1.2 (by norm_num [stuckBee]) (by norm_num [stuckBee, screenWidth])
      (by norm_num [crossedX, stuckBee, screenWidth])
  · have h := C1_reflection { stuckBeeY with y := 1 } rfl
    exact h.2.1.1 (by norm_num [crossedY, stuckBeeY, screenHeight])
  · have h := C1_reflection { stuckBeeY with y := 1 } rfl
    exact h.2.2 (by norm_num [stuckBeeY]) (by norm_num [stuckBeeY, screenHeight])
      (by norm_num [crossedY, stuckBeeY, screenHeight])


/-! ### Claims C2-C10 -/

/-- C2: a click during play that hits an entity (the first match of the click
loop, run on the moved entities of that tick) adds exactly 1 to the score for
a normal-tier bee, exactly 3 for a high-tier bee, and nothing for a hornet. -/
theorem C2_score (g : Game) (i : Input) (b : Bee)
    (hs : g.gameStarted = true) (ho : g.gameOver = false)
    (ht : ¬ (gameTime - (i.now - g.startTime) ≤ 0))
    (hp : i.justPressed = true)
    (hb : (clickBees i.cursorX i.cursorY
        (moveStep (tickLightning (spawnStep
          { g with remainingTime := gameTime - (i.now - g.startTime) } i))).bees).2 = some b) :
    (update g i).score =
      if b.isHornets then g.score
      else if b.isHighSpeed then g.score + 3 else g.score + 1 := by
  rw [update_playing g i hs ho, if_neg ht]
  set g2 := moveStep (tickLightning (spawnStep
    { g with remainingTime := gameTime - (i.now - g.startTime) } i)) with hg2
  have hsc : g2.score = g.score := by
    rw [hg2]; simp
  simp only [playStep, compactStep_score, clickStep, hp, if_true]
  rw [← hg2]
  simp only [processClick, hb]
  rw [scoreHit_score]
  simp only [hsc]

/-- Witness for `C2_score`: clicking the stationary normal-tier `sampleBee`
raises the score by exactly 1. -/
theorem C2_score_witness :
    sampleGame.gameStarted = true ∧ sampleGame.gameOver = false ∧
      ¬(gameTime - (clickInput.now - sampleGame.startTime) ≤ 0) ∧
      clickInput.justPressed = true ∧
      (clickBees clickInput.cursorX clickInput.cursorY
        (moveStep (tickLightning (spawnStep
          { sampleGame with remainingTime := gameTime - (clickInput.now - sampleGame.startTime) }
          clickInput))).bees).2 = some sampleBee ∧
      (update sampleGame clickInput).score =
        if sampleBee.isHornets then sampleGame.score
        else if sampleBee.isHighSpeed then sampleGame.score + 3 else sampleGame.score + 1 := by
  have ht : ¬(gameTime - (clickInput.now - sampleGame.startTime) ≤ 0) := by
    norm_num [gameTime, clickInput, sampleGame]
  have hb : (clickBees clickInput.cursorX clickInput.cursorY
      (moveStep (tickLightning (spawnStep
        { sampleGame with remainingTime := gameTime - (clickInput.now - sampleGame.startTime) }
        clickInput))).bees).2 = some sampleBee := by
    norm_num [spawnStep, sampleGame, clickInput, tickLightning, moveStep, moveBee, clickBees,
      hitTest, contains, sampleBee, screenWidth, screenHeight, gameTime]
  exact ⟨rfl, rfl, ht, rfl, hb, C2_score sampleGame clickInput sampleBee rfl rfl ht rfl hb⟩

/-- C3: in every reachable state the penalty counter lies in 0..3 and
reaching 3 forces game over; and during play one update step never decreases
it. -/
theorem C3_penalty :
    (∀ g : Game, Reachable g →
      0 ≤ g.hornetsClicked ∧ g.hornetsClicked ≤ 3 ∧
        (g.hornetsClicked = 3 → g.gameOver = true)) ∧
    (∀ (g : Game) (i : Input), g.gameStarted = true → g.gameOver = false →
      g.hornetsClicked ≤ (update g i).hornetsClicked) := by
  constructor
  · intro g h
    obtain ⟨h1, h2, h3, _, _, _⟩ := reachable_inv g h
    exact ⟨h1, h2, h3⟩
  · exact update_hornets_mono

/-- Witness for `C3_penalty` at the initial state and a concrete playing
step. -/
theorem C3_penalty_witness :
    Reachable initGame ∧
      (0 ≤ initGame.hornetsClicked ∧ initGame.hornetsClicked ≤ 3 ∧
        (initGame.hornetsClicked = 3 → initGame.gameOver = true)) ∧
      sampleGame.gameStarted = true ∧ sampleGame.gameOver = false ∧
      sampleGame.hornetsClicked ≤ (update sampleGame clickInput).hornetsClicked :=
  ⟨Reachable.init, C3_penalty.1 initGame Reachable.init, rfl, rfl,
    C3_penalty.2 sampleGame clickInput rfl rfl⟩

/-- C4: a playing-phase step whose computed remaining time is ≤ 0 sets game
over (whatever the penalty count, which the statement never mentions) and
stores 0; and the stored remaining time is never negative in any reachable
state. -/
theorem C4_timeout :
    (∀ (g : Game) (i : Input), g.gameStarted = true → g.gameOver = false →
      gameTime - (i.now - g.startTime) ≤ 0 →
      (update g i).gameOver = true ∧ (update g i).remainingTime = 0) ∧
    (∀ g : Game, Reachable g → 0 ≤ g.remainingTime) := by
  constructor
  · intro g i hs ho ht
    rw [update_playing g i hs ho, if_pos ht]
    exact ⟨rfl, rfl⟩
  · intro g h
    exact (reachable_inv g h).2.2.2.2.2

/-- Witness for `C4_timeout`: a tick 100 seconds after the start ends the
game. -/
theorem C4_timeout_witness :
    sampleGame.gameStarted = true ∧ sampleGame.gameOver = false ∧
      gameTime - (timeoutInput.now - sampleGame.startTime) ≤ 0 ∧
      ((update sampleGame timeoutInput).gameOver = true ∧
        (update sampleGame timeoutInput).remainingTime = 0) ∧
      Reachable initGame ∧ 0 ≤ initGame.remainingTime :=
  ⟨rfl, rfl, by norm_num [gameTime, timeoutInput, sampleGame],
    C4_timeout.1 sampleGame timeoutInput rfl rfl
      (by norm_num [gameTime, timeoutInput, sampleGame]),
    Reachable.init, C4_timeout.2 initGame Reachable.init⟩

/-- C5: one update step adds at most one entity, keeps a count that was ≤ 10
at ≤ 10, and every reachable state has at most 10 entities. -/
theorem C5_entity_cap :
    (∀ (g : Game) (i : Input),
      ((update g i).bees).length ≤ g.bees.length + 1 ∧
        (g.bees.length ≤ 10 → ((update g i).bees).length ≤ 10)) ∧
    (∀ g : Game, Reachable g → g.bees.length ≤ 10) := by
  constructor
  · intro g i
    by_cases hs : g.gameStarted = true
    · by_cases ho : g.gameOver = true
      · rw [update_over g i hs ho]
        split
        · constructor
          · simp [resetGame]
          · intro _
            simp [resetGame]
        · exact ⟨Nat.le_succ _, fun h => h⟩
      · rw [Bool.not_eq_true] at ho
        rw [update_playing g i hs ho]
        split
        · exact ⟨Nat.le_succ _, fun h => h⟩
        · exact ⟨playStep_length_le _ i, fun h => playStep_length_cap _ i h⟩
    · rw [Bool.not_eq_true] at hs
      rw [update_notStarted g i hs]
      split
      · exact ⟨Nat.le_succ _, fun h => h⟩
      · exact ⟨Nat.le_succ _, fun h => h⟩
  · intro g h
    exact (reachable_inv g h).2.2.2.1

/-- Witness for `C5_entity_cap` at a concrete step and the initial state. -/
theorem C5_entity_cap_witness :
    ((update sampleGame clickInput).bees.length ≤ sampleGame.bees.length + 1 ∧
      (sampleGame.bees.length ≤ 10 → (update sampleGame clickInput).bees.length ≤ 10)) ∧
      Reachable initGame ∧ initGame.bees.length ≤ 10 :=
  ⟨C5_entity_cap.1 sampleGame clickInput, Reachable.init,
    C5_entity_cap.2 initGame Reachable.init⟩

/-- C6: a press while the game is over resets the state: score 0, penalty
counter 0, no entities, the full 60-second duration, effect flag off, and the
current wall-clock reading recorded as the new start. -/
theorem C6_reset (g : Game) (i : Input) (hs : g.gameStarted = true) (ho : g.gameOver = true)
    (hp : i.justPressed = true) :
    (update g i).score = 0 ∧ (update g i).hornetsClicked = 0 ∧ (update g i).bees = [] ∧
      (update g i).remainingTime = 60 ∧ (update g i).lightningEffect = false ∧
      (update g i).startTime = i.now ∧ (update g i).gameOver = false := by
  rw [update_over g i hs ho, if_pos hp]
  exact ⟨rfl, rfl, rfl, rfl, rfl, rfl, rfl⟩

/-- Witness for `C6_reset` at a finished game with leftover state. -/
theorem C6_reset_witness :
    overGame.gameStarted = true ∧ overGame.gameOver = true ∧ clickInput.justPressed = true ∧
      ((update overGame clickInput).score = 0 ∧ (update overGame clickInput).hornetsClicked = 0 ∧
        (update overGame clickInput).bees = [] ∧
        (update overGame clickInput).remainingTime = 60 ∧
        (update overGame clickInput).lightningEffect = false ∧
        (update overGame clickInput).startTime = clickInput.now ∧
        (update overGame clickInput).gameOver = false) :=
  ⟨rfl, rfl, rfl, C6_reset overGame clickInput rfl rfl rfl⟩

/-- C7: the click loop scans in insertion order and stops at the first visible
entity containing the point: with no match the list is unchanged and no hit is
reported; with a first match at some position, exactly that entity is marked
invisible and reported, and everything before and after it (even later
entities containing the point) is untouched. -/
theorem C7_first_match (x y : Int) :
    (∀ l : List Bee, (∀ a ∈ l, hitTest a x y = false) → clickBees x y l = (l, none)) ∧
    (∀ (pre : List Bee) (b : Bee) (post : List Bee),
      (∀ a ∈ pre, hitTest a x y = false) → hitTest b x y = true →
      clickBees x y (pre ++ b :: post) =
        (pre ++ { b with visible := false } :: post, some b)) :=
  ⟨clickBees_no_match x y, fun pre b post h1 h2 => clickBees_first_match x y pre b post h1 h2⟩

/-- Witness for `C7_first_match`: two overlapping entities both containing
(120, 120); only the earlier-inserted one is hit and marked invisible. -/
theorem C7_first_match_witness :
    hitTest sampleBee 120 120 = true ∧ hitTest overlapBee 120 120 = true ∧
      clickBees 120 120 ([] ++ sampleBee :: [overlapBee]) =
        ([] ++ { sampleBee with visible := false } :: [overlapBee], some sampleBee) := by
  refine ⟨?_, ?_, ?_⟩
  · norm_num [hitTest, contains, sampleBee]
  · norm_num [hitTest, contains, overlapBee]
  · exact (C7_first_match 120 120).2 [] sampleBee [overlapBee] (by simp)
      (by norm_num [hitTest, contains, sampleBee])

/-- C8: a visible entity whose positions stay strictly inside both bounds for
`N` motion ticks ends at its initial position plus `N` times its velocity,
with the velocity unchanged. -/
theorem C8_straight_motion (b : Bee) (N : ℕ) (hv : b.visible = true)
    (h : ∀ k : ℕ, k < N →
      0 < b.x + (k + 1 : ℚ) * b.speedX ∧
      b.x + (k + 1 : ℚ) * b.speedX < ((screenWidth - b.width : Int) : ℚ) ∧
      0 < b.y + (k + 1 : ℚ) * b.speedY ∧
      b.y + (k + 1 : ℚ) * b.speedY < ((screenHeight - b.height : Int) : ℚ)) :
    (moveBee^[N] b).x = b.x + (N : ℚ) * b.speedX ∧
    (moveBee^[N] b).y = b.y + (N : ℚ) * b.speedY ∧
    (moveBee^[N] b).speedX = b.speedX ∧
    (moveBee^[N] b).speedY = b.speedY := by
  obtain ⟨h1, h2, h3, h4, _, _, _⟩ := moveBee_iterate b N hv h
  exact ⟨h1, h2, h3, h4⟩

/-- Witness for `C8_straight_motion`: two ticks of `moverBee`. -/
theorem C8_straight_motion_witness :
    moverBee.visible = true ∧
      (moveBee^[2] moverBee).x = moverBee.x + (2 : ℚ) * moverBee.speedX ∧
      (moveBee^[2] moverBee).y = moverBee.y + (2 : ℚ) * moverBee.speedY ∧
      (moveBee^[2] moverBee).speedX = moverBee.speedX ∧
      (moveBee^[2] moverBee).speedY = moverBee.speedY := by
  have h := C8_straight_motion moverBee 2 rfl (by
    intro k hk
    interval_cases k <;> norm_num [moverBee, screenWidth, screenHeight])
  exact ⟨rfl, h.1, h.2.1, h.2.2.1, h.2.2.2⟩

/-- C9: in every reachable state at an update-step boundary, every entity in
the active list is visible (the compaction pass removed the clicked one before
the step ended). -/
theorem C9_all_visible (g : Game) (h : Reachable g) : ∀ b ∈ g.bees, b.visible = true :=
  (reachable_inv g h).2.2.2.2.1

/-- Witness for `C9_all_visible` at a reachable state that actually holds an
entity: start the game, then spawn one bee. -/
theorem C9_all_visible_witness :
    Reachable (update (update initGame pressInput) spawnInput) ∧
      (update (update initGame pressInput) spawnInput).bees ≠ [] ∧
      ∀ b ∈ (update (update initGame pressInput) spawnInput).bees, b.visible = true :=
  ⟨Reachable.step spawnInput (Reachable.step pressInput Reachable.init),
    by norm_num [update, initGame, pressInput, spawnInput, gameTime, playStep, spawnStep,
      addBee, tickLightning, moveStep, clickStep, compactStep, mkBee, sampleSpawn, moveBee,
      screenWidth, screenHeight],
    C9_all_visible _ (Reachable.step spawnInput (Reachable.step pressInput Reachable.init))⟩

/-- C10: the playing-phase step that hits the time limit changes exactly the
game-over flag and the stored remaining time (set to 0) and nothing else: no
motion, no spawn, no removal, no click processing, no score or penalty change,
no lightning countdown. -/
theorem C10_timeout_frame (g : Game) (i : Input) (hs : g.gameStarted = true)
    (ho : g.gameOver = false) (ht : gameTime - (i.now - g.startTime) ≤ 0) :
    update g i = { g with gameOver := true, remainingTime := 0 } := by
  rw [update_playing g i hs ho, if_pos ht]

/-- Witness for `C10_timeout_frame` at a concrete timed-out tick. -/
theorem C10_timeout_frame_witness :
    sampleGame.gameStarted = true ∧ sampleGame.gameOver = false ∧
      gameTime - (timeoutInput.now - sampleGame.startTime) ≤ 0 ∧
      update sampleGame timeoutInput = { sampleGame with gameOver := true, remainingTime := 0 } :=
  ⟨rfl, rfl, by norm_num [gameTime, timeoutInput, sampleGame],
    C10_timeout_frame sampleGame timeoutInput rfl rfl
      (by norm_num [gameTime, timeoutInput, sampleGame])⟩

end BeeGame
